import Mathlib

/-!
# CommitGenie core — shallow embedding

A shallow embedding of the deterministic commit-message engine of
CommitGenie (`src/services/analyzerService.ts`, `src/services/historyService.ts`,
`src/utils/filePatterns.ts`, configuration defaults from
`src/services/configService.ts`), together with theorems checking the
natural-language specification against it.

JavaScript strings are modelled as Lean `String` (a list of Unicode code
points); the regular-expression tests used by the source are modelled by a
small explicit matcher (`RE`, `reTest`) in which every pattern of the source
is transcribed constructor by constructor.  JavaScript `Number` arithmetic on
the two fractional thresholds (`0.3`, `0.5`) and the churn ratio is modelled
over `ℚ`; for every count reachable here (integers below 2^53) the IEEE-754
comparison of the source and the exact rational comparison agree.
-/

namespace CommitGenie

/-! ## String helpers (JavaScript semantics) -/

/-- JavaScript `\w` character class: `[A-Za-z0-9_]`. -/
def isWordChar (c : Char) : Bool :=
  (('a' ≤ c && c ≤ 'z') || ('A' ≤ c && c ≤ 'Z') || ('0' ≤ c && c ≤ '9') || c = '_')

/-- JavaScript `\s` character class (whitespace, incl. the Unicode members). -/
def isWsChar (c : Char) : Bool :=
  c = ' ' || c = '\t' || c = '\n' || c = '\r' ||
  c.val = 11 || c.val = 12 || c.val = 0xA0 || c.val = 0x1680 ||
  (0x2000 ≤ c.val && c.val ≤ 0x200A) ||
  c.val = 0x2028 || c.val = 0x2029 || c.val = 0x202F || c.val = 0x205F ||
  c.val = 0x3000 || c.val = 0xFEFF

/-- Does the second list start with the first? -/
def listStarts : List Char → List Char → Bool
  | [], _ => true
  | _ :: _, [] => false
  | a :: as, b :: bs => a == b && listStarts as bs

/-- Does the needle occur somewhere in the haystack? -/
def listHasInfix (needle : List Char) : List Char → Bool
  | [] => listStarts needle []
  | c :: cs => listStarts needle (c :: cs) || listHasInfix needle cs

/-- JavaScript `s.includes(sub)` (note: always true for the empty needle). -/
def strIncludes (s sub : String) : Bool :=
  listHasInfix sub.data s.data

/-- JavaScript `s.trim()`. -/
def trimJS (s : String) : String :=
  ⟨((s.data.dropWhile isWsChar).reverse.dropWhile isWsChar).reverse⟩

/-- JavaScript `s.toLowerCase()` (code-point-wise, as for the ASCII data
of the source). -/
def strToLower (s : String) : String :=
  ⟨s.data.map Char.toLower⟩

/-- `s.startsWith(t)`. -/
def strStarts (s t : String) : Bool :=
  listStarts t.data s.data

/-- `s.endsWith(t)`. -/
def strEnds (s t : String) : Bool :=
  listStarts t.data.reverse s.data.reverse

/-- `s.substring(n)` / `s.drop n` by code points. -/
def strDrop (s : String) (n : Nat) : String :=
  ⟨s.data.drop n⟩

/-- JavaScript `s.split(sep)` for a one-character separator. -/
def splitCharAux (sep : Char) : List Char → List Char → List String
  | [], acc => [⟨acc.reverse⟩]
  | c :: cs, acc =>
    if c == sep then ⟨acc.reverse⟩ :: splitCharAux sep cs []
    else splitCharAux sep cs (c :: acc)

def splitChar (sep : Char) (s : String) : List String :=
  splitCharAux sep s.data []

def strIntercalate (sep : String) : List String → String
  | [] => ""
  | [x] => x
  | x :: xs => x ++ sep ++ strIntercalate sep xs

/-- `getFileName` of `AnalyzerService`: last `/`-separated component. -/
def getFileName (path : String) : String :=
  (splitChar '/' path).getLastD ""

/-- Pluralisation used throughout: `"s"` for counts above one. -/
def plural (n : Nat) : String := if n > 1 then "s" else ""

/-- JavaScript `a || b` for an optional string (empty string is falsy). -/
def strOr (o : Option String) (dflt : String) : String :=
  match o with
  | some s => if s = "" then dflt else s
  | none => dflt

/-- JavaScript truthiness of a `string | undefined` value. -/
def optTruthy (o : Option String) : Bool :=
  match o with
  | some s => !(s == "")
  | none => false

/-- Replace the first occurrence of `tgt` in a list (JavaScript
`String.prototype.replace` with a string argument). -/
def replFirst (tgt repl : List Char) : List Char → List Char
  | [] => if tgt.isEmpty then repl else []
  | c :: cs =>
    if listStarts tgt (c :: cs) then repl ++ (c :: cs).drop tgt.length
    else c :: replFirst tgt repl cs

/-- JavaScript `s.replace(tgt, repl)` (first occurrence only). -/
def replaceFirst (s tgt repl : String) : String :=
  ⟨replFirst tgt.data repl.data s.data⟩

/-- Collapse every maximal whitespace run into one space
(JavaScript `s.replace(/\s+/g, ' ')`); the flag records whether the
previous character belonged to a whitespace run. -/
def collapseWsAux (prevWs : Bool) : List Char → List Char
  | [] => []
  | c :: cs =>
    if isWsChar c then
      (if prevWs then [] else [' ']) ++ collapseWsAux true cs
    else c :: collapseWsAux false cs

def collapseWs (l : List Char) : List Char := collapseWsAux false l

/-! ## A small matcher for the regular expressions of the source

Only the constructs the source's patterns use are represented: character
classes, sequencing, alternation, `?`, class `*` / `+`, word boundaries and
the four anchors.  `reTest r s` decides whether the pattern matches anywhere
in `s`, which is exactly what `RegExp.prototype.test` / the truthiness of
`String.prototype.match` decide. -/

inductive RE where
  | eps : RE
  | cls (p : Char → Bool) : RE
  | seq (a b : RE) : RE
  | alt (a b : RE) : RE
  | opt (a : RE) : RE
  | many (p : Char → Bool) : RE
  | many1 (p : Char → Bool) : RE
  | bnd : RE
  | bol : RE
  | bos : RE
  | eol : RE
  | eos : RE

def wordOpt : Option Char → Bool
  | some c => isWordChar c
  | none => false

def wordHead : List Char → Bool
  | c :: _ => isWordChar c
  | [] => false

/-- Continuation-passing match of `p*` (all split points are explored). -/
def manyCont (p : Char → Bool) : Option Char → List Char → (Option Char → List Char → Bool) → Bool
  | prev, [], k => k prev []
  | prev, c :: cs, k => k prev (c :: cs) || (p c && manyCont p (some c) cs k)

/-- Continuation-passing matcher: does `r` match a prefix of `cs` (with
`prev` the character just before `cs`), continuing with `k`? -/
def matchRE : RE → Option Char → List Char → (Option Char → List Char → Bool) → Bool
  | .eps, prev, cs, k => k prev cs
  | .cls p, _prev, cs, k =>
    match cs with
    | [] => false
    | c :: rest => p c && k (some c) rest
  | .seq a b, prev, cs, k => matchRE a prev cs (fun p2 cs2 => matchRE b p2 cs2 k)
  | .alt a b, prev, cs, k => matchRE a prev cs k || matchRE b prev cs k
  | .opt a, prev, cs, k => matchRE a prev cs k || k prev cs
  | .many p, prev, cs, k => manyCont p prev cs k
  | .many1 p, _prev, cs, k =>
    match cs with
    | [] => false
    | c :: rest => p c && manyCont p (some c) rest k
  | .bnd, prev, cs, k => (wordOpt prev != wordHead cs) && k prev cs
  | .bol, prev, cs, k => (prev.isNone || prev == some '\n') && k prev cs
  | .bos, prev, cs, k => prev.isNone && k prev cs
  | .eol, prev, cs, k => (cs.isEmpty || cs.head? == some '\n') && k prev cs
  | .eos, prev, cs, k => cs.isEmpty && k prev cs

/-- Try a match at every start position. -/
def searchFrom (r : RE) : Option Char → List Char → Bool
  | prev, [] => matchRE r prev [] (fun _ _ => true)
  | prev, c :: cs => matchRE r prev (c :: cs) (fun _ _ => true) || searchFrom r (some c) cs

/-- `RegExp.prototype.test`. -/
def reTest (r : RE) (s : String) : Bool :=
  searchFrom r none s.data

/-- Literal string (case-sensitive). -/
def lit (s : String) : RE :=
  s.data.foldr (fun c r => RE.seq (RE.cls (fun x => x == c)) r) RE.eps

/-- Literal string under the `i` flag (ASCII case folding, as for the
source's ASCII-only patterns). -/
def litCI (s : String) : RE :=
  s.data.foldr (fun c r => RE.seq (RE.cls (fun x => x.toLower == c.toLower)) r) RE.eps

def reSeqs (l : List RE) : RE := l.foldr RE.seq RE.eps

def altList (l : List RE) : RE := l.foldr RE.alt (RE.cls (fun _ => false))

def wsMany : RE := RE.many isWsChar
def wsMany1 : RE := RE.many1 isWsChar
def wMany1 : RE := RE.many1 isWordChar
/-- `.` (anything but a newline). -/
def dotAny : RE := RE.cls (fun c => c != '\n')
def dotMany : RE := RE.many (fun c => c != '\n')

/-! ## `src/utils/filePatterns.ts` -/

inductive FileType where
  | test | docs | config | source
deriving DecidableEq, Repr

/-- The ordered pattern table of `filePatterns` (pattern, file type). -/
def filePatterns : List (RE × FileType) := [
  -- /\.(test|spec)\.(ts|js|tsx|jsx)$/
  (reSeqs [lit ".", RE.alt (lit "test") (lit "spec"), lit ".",
           altList [lit "ts", lit "js", lit "tsx", lit "jsx"], RE.eos], .test),
  -- /\/__tests__\//
  (lit "/__tests__/", .test),
  -- /\/tests?\//
  (reSeqs [lit "/test", RE.opt (lit "s"), lit "/"], .test),
  -- /\.(md|mdx)$/
  (reSeqs [lit ".", RE.alt (lit "md") (lit "mdx"), RE.eos], .docs),
  -- /\/docs?\//
  (reSeqs [lit "/doc", RE.opt (lit "s"), lit "/"], .docs),
  -- /^README/i
  (reSeqs [RE.bos, litCI "README"], .docs),
  -- /\.(json|ya?ml|toml|ini|config\.js)$/
  (reSeqs [lit ".",
           altList [lit "json", reSeqs [lit "y", RE.opt (lit "a"), lit "ml"],
                    lit "toml", lit "ini", lit "config.js"], RE.eos], .config),
  -- /\.(eslintrc|prettierrc|babelrc|gitignore|dockerignore)/
  (reSeqs [lit ".",
           altList [lit "eslintrc", lit "prettierrc", lit "babelrc",
                    lit "gitignore", lit "dockerignore"]], .config),
  -- /^(package\.json|tsconfig\.json|webpack\.config|vite\.config)/
  (reSeqs [RE.bos,
           altList [lit "package.json", lit "tsconfig.json",
                    lit "webpack.config", lit "vite.config"]], .config),
  -- /Dockerfile/
  (lit "Dockerfile", .config)]

/-- `detectFileType`: first matching pattern wins, default `source`. -/
def detectFileType (filePath : String) : FileType :=
  match filePatterns.find? (fun pr => reTest pr.1 filePath) with
  | some pr => pr.2
  | none => .source

/-! ## Data model (`src/types/index.ts`) -/

inductive CommitType where
  | feat | fix | docs | style | refactor | test | chore | perf
deriving DecidableEq, Repr

def CommitType.toStr : CommitType → String
  | .feat => "feat" | .fix => "fix" | .docs => "docs" | .style => "style"
  | .refactor => "refactor" | .test => "test" | .chore => "chore" | .perf => "perf"

/-- A staged file: git status letter (`"A"`, `"M"`, `"D"`, `"R"`, …) and path. -/
structure FileChange where
  status : String
  path : String
deriving DecidableEq, Repr

structure DiffStats where
  filesChanged : Nat
  insertions : Nat
  deletions : Nat
deriving DecidableEq, Repr

structure ScopeMapping where
  pattern : String
  scope : String
deriving DecidableEq, Repr

/-- Ticket reference; the source's `prefix` field is called `refLabel`
here (`prefix` is reserved in Lean). -/
structure TicketInfo where
  id : String
  source : String
  refLabel : Option String
deriving DecidableEq, Repr

structure TicketLinkingConfig where
  enabled : Option Bool
  patterns : Option (List String)
  refLabel : Option String
deriving DecidableEq, Repr

structure LearnFromHistoryConfig where
  enabled : Option Bool
  commitCount : Option Nat
deriving DecidableEq, Repr

structure BreakingDetectionConfig where
  enabled : Option Bool
  keywords : Option (List String)
  includeFooter : Option Bool
deriving DecidableEq, Repr

/-- Custom templates; the source's `default` field is called
`defaultTemplate` here. -/
structure TemplatesConfig where
  defaultTemplate : Option String
  noScope : Option String
  withBody : Option String
deriving DecidableEq, Repr

/-- `CommitGenieConfig` (the fields the analyzer reads; `customPatterns`
and `ai` are never consulted by the embedded functions and are omitted). -/
structure CommitGenieConfig where
  scopes : Option (List ScopeMapping)
  defaultType : Option CommitType
  includeEmoji : Option Bool
  maxMessageLength : Option Nat
  ticketLinking : Option TicketLinkingConfig
  learnFromHistory : Option LearnFromHistoryConfig
  breakingChangeDetection : Option BreakingDetectionConfig
  templates : Option TemplatesConfig
deriving DecidableEq, Repr

/-- `DEFAULT_CONFIG` of `src/services/configService.ts`
(note: it sets no `templates`). -/
def DEFAULT_CONFIG : CommitGenieConfig where
  scopes := some []
  defaultType := some .feat
  includeEmoji := none
  maxMessageLength := some 72
  ticketLinking := some ⟨some true, none, some "Refs:"⟩
  learnFromHistory := some ⟨some true, some 50⟩
  breakingChangeDetection := some ⟨some true, none, some true⟩
  templates := none

structure FilesAffected where
  test : Nat
  docs : Nat
  config : Nat
  source : Nat
deriving DecidableEq, Repr

structure FileChangeGroups where
  added : List String
  modified : List String
  deleted : List String
  renamed : List String
deriving DecidableEq, Repr

structure FileStatusCounts where
  added : Nat
  modified : Nat
  deleted : Nat
  renamed : Nat
deriving DecidableEq, Repr

structure ChangeAnalysis where
  commitType : CommitType
  scope : Option String
  description : String
  filesAffected : FilesAffected
  fileChanges : FileChangeGroups
  isLargeChange : Bool
  isBreakingChange : Bool
  breakingChangeReasons : List String
deriving DecidableEq, Repr

structure CommitMessage where
  type : CommitType
  scope : Option String
  description : String
  body : Option String
  full : String
  isBreaking : Bool
deriving DecidableEq, Repr

structure MessageSuggestion where
  id : Nat
  message : CommitMessage
  label : String
deriving DecidableEq, Repr

structure CommitHistoryAnalysis where
  usesEmojis : Bool
  usesConventionalCommits : Bool
  commonScopes : List String
  commonVerbs : List String
  averageLength : Nat
  emojiFrequency : List (String × Nat)
  typeFrequency : List (String × Nat)
deriving DecidableEq, Repr

/-- Historical commit (only the subject line is consulted by the analysis). -/
structure HistoricalCommit where
  subject : String
deriving DecidableEq, Repr

/-- `COMMIT_EMOJIS`. -/
def COMMIT_EMOJIS : CommitType → String
  | .feat => "✨" | .fix => "🐛" | .docs => "📚" | .style => "💄"
  | .refactor => "♻️" | .test => "🧪" | .chore => "🔧" | .perf => "⚡"

/-! ## Breaking-change detection (`AnalyzerService.detectBreakingChanges`) -/

def DEFAULT_BREAKING_KEYWORDS : List String :=
  ["breaking", "breaking change", "breaking-change", "removed", "deprecated",
   "incompatible"]

-- /^-\s*export\s+(function|class|const|let|var|interface|type|enum)\s+(\w+)/gm
def breakingExportRE : RE :=
  reSeqs [RE.bol, lit "-", wsMany, lit "export", wsMany1,
          altList [lit "function", lit "class", lit "const", lit "let",
                   lit "var", lit "interface", lit "type", lit "enum"],
          wsMany1, wMany1]

-- /^-\s*(public|private|protected)?\s*(async\s+)?function\s+\w+\s*\([^)]+\)/gm
def breakingFnParamsRE : RE :=
  reSeqs [RE.bol, lit "-", wsMany,
          RE.opt (altList [lit "public", lit "private", lit "protected"]),
          wsMany, RE.opt (reSeqs [lit "async", wsMany1]),
          lit "function", wsMany1, wMany1, wsMany, lit "(",
          RE.many1 (fun c => c != ')'), lit ")"]

-- /^-\s*\w+\s*\([^)]+\)\s*[:{]/gm
def breakingSignatureRE : RE :=
  reSeqs [RE.bol, lit "-", wsMany, wMany1, wsMany, lit "(",
          RE.many1 (fun c => c != ')'), lit ")", wsMany,
          RE.cls (fun c => c == ':' || c.val == 123)]

-- /^-\s*(public|private|protected)\s+(static\s+)?(async\s+)?\w+\s*\(/gm
def breakingClassMethodRE : RE :=
  reSeqs [RE.bol, lit "-", wsMany,
          altList [lit "public", lit "private", lit "protected"], wsMany1,
          RE.opt (reSeqs [lit "static", wsMany1]),
          RE.opt (reSeqs [lit "async", wsMany1]),
          wMany1, wsMany, lit "("]

-- /^-\s+\w+\s*[?:]?\s*:/gm
def breakingPropertyRE : RE :=
  reSeqs [RE.bol, lit "-", wsMany1, wMany1, wsMany,
          RE.opt (RE.cls (fun c => c == '?' || c == ':')), wsMany, lit ":"]

-- /^-\s*"version":\s*"\d+/gm
def breakingVersionRE : RE :=
  reSeqs [RE.bol, lit "-", wsMany, lit "\"version\":", wsMany, lit "\"",
          RE.many1 (fun c => c.isDigit)]

/-- The six `BREAKING_PATTERNS` (all `gm`-flagged), each paired with the
reason label the source's `pattern.source.includes(...)` dispatch assigns to
it — the third and fifth patterns hit none of the dispatch branches, so a
match of theirs stops the loop without contributing a reason. -/
def BREAKING_PATTERNS : List (RE × Option String) := [
  (breakingExportRE, some "Removed exported members"),
  (breakingFnParamsRE, some "Changed function signatures"),
  (breakingSignatureRE, none),
  (breakingClassMethodRE, some "Removed class methods"),
  (breakingPropertyRE, none),
  (breakingVersionRE, some "Major version change detected")]

/-- The pattern-based step of the detector: the loop stops at the first
matching pattern and contributes that pattern's reason (if any). -/
def patternReason (diff : String) : Option String :=
  (BREAKING_PATTERNS.find? (fun pr => reTest pr.1 diff)).bind (fun pr => pr.2)

/-- `[...new Set(reasons)]`: deduplication keeping first occurrences. -/
def dedupFirstAux (seen : List String) : List String → List String
  | [] => []
  | x :: xs =>
    if x ∈ seen then dedupFirstAux seen xs
    else x :: dedupFirstAux (x :: seen) xs

def dedupFirst (l : List String) : List String := dedupFirstAux [] l

structure BreakingResult where
  isBreaking : Bool
  reasons : List String
deriving DecidableEq, Repr

/-- The keyword loop of `detectBreakingChanges`. -/
def keywordReasons (cfg : CommitGenieConfig) (diff : String) : List String :=
  let diffLower := strToLower diff
  let keywords := (cfg.breakingChangeDetection.bind (fun bc => bc.keywords)).getD
    DEFAULT_BREAKING_KEYWORDS
  keywords.filterMap (fun keyword =>
    if strIncludes diffLower (strToLower keyword) then
      some ("Contains \"" ++ keyword ++ "\" keyword")
    else none)

/-- The deleted-source-file check of `detectBreakingChanges`. -/
def deletedReasons (stagedFiles : List FileChange) : List String :=
  let deletedSourceFiles := stagedFiles.filter
    (fun f => f.status == "D" && detectFileType f.path == FileType.source)
  if deletedSourceFiles.length > 0 then
    ["Deleted source files: " ++
      strIntercalate ", " (deletedSourceFiles.map (fun f => getFileName f.path))]
  else []

/-- The renamed-source-file check of `detectBreakingChanges`. -/
def renamedReasons (stagedFiles : List FileChange) : List String :=
  let renamedFiles := stagedFiles.filter (fun f => f.status == "R")
  if renamedFiles.length > 0 &&
     (renamedFiles.filter (fun f => detectFileType f.path == FileType.source)).length > 0 then
    ["Renamed source files (may break imports)"]
  else []

/-- `AnalyzerService.detectBreakingChanges` (the configuration, read from
`ConfigService.getConfig()` in the source, is an explicit argument). -/
def detectBreakingChanges (cfg : CommitGenieConfig) (diff : String)
    (stagedFiles : List FileChange) : BreakingResult :=
  if (cfg.breakingChangeDetection.bind (fun bc => bc.enabled)) == some false then
    ⟨false, []⟩
  else
    let uniqueReasons :=
      dedupFirst (keywordReasons cfg diff ++ deletedReasons stagedFiles ++
        (patternReason diff).toList ++ renamedReasons stagedFiles)
    ⟨uniqueReasons.length > 0, uniqueReasons⟩

/-! ## Commit-type cascade (`AnalyzerService.determineCommitType`) -/

/-- The three `formattingPatterns` (all `gm`). -/
def formattingPatterns : List RE := [
  -- /^[+-]\s*$/gm
  reSeqs [RE.bol, RE.cls (fun c => c == '+' || c == '-'), wsMany, RE.eol],
  -- /^[+-]\s*['"`];?\s*$/gm
  reSeqs [RE.bol, RE.cls (fun c => c == '+' || c == '-'), wsMany,
          RE.cls (fun c => c.val == 39 || c == '"' || c.val == 96),
          RE.opt (lit ";"), wsMany, RE.eol],
  -- /^[+-].*;\s*$/gm
  reSeqs [RE.bol, RE.cls (fun c => c == '+' || c == '-'), dotMany, lit ";",
          wsMany, RE.eol]]

/-- The ten `perfPatterns` (all `i`; tested against the lowercased diff). -/
def perfPatterns : List RE := [
  reSeqs [RE.bnd, litCI "performance", RE.bnd],
  reSeqs [RE.bnd, litCI "optimiz",
          altList [litCI "e", litCI "ation", litCI "ing"], RE.bnd],
  reSeqs [RE.bnd, litCI "faster", RE.bnd],
  reSeqs [RE.bnd, litCI "speed", wsMany,
          RE.alt (litCI "up") (litCI "improvement"), RE.bnd],
  reSeqs [RE.bnd, litCI "cach", RE.alt (litCI "e") (litCI "ing"), RE.bnd],
  reSeqs [RE.bnd, litCI "memoiz", RE.alt (litCI "e") (litCI "ation"), RE.bnd],
  reSeqs [RE.bnd, litCI "lazy", wsMany, litCI "load"],
  reSeqs [RE.bnd, litCI "async", RE.bnd, dotMany, RE.bnd, litCI "await", RE.bnd],
  reSeqs [RE.bnd, litCI "parallel", RE.bnd],
  reSeqs [RE.bnd, litCI "batch", RE.opt (litCI "ing"), RE.bnd]]

/-- The sixteen `fixPatterns` (tested against the raw diff; all `i` except
the null-guard pattern). -/
def fixPatterns : List RE := [
  -- /\bfix(es|ed|ing)?\s*(the\s*)?(bug|issue|error|problem|crash)/i
  reSeqs [RE.bnd, litCI "fix",
          RE.opt (altList [litCI "es", litCI "ed", litCI "ing"]), wsMany,
          RE.opt (reSeqs [litCI "the", wsMany]),
          altList [litCI "bug", litCI "issue", litCI "error", litCI "problem",
                   litCI "crash"]],
  -- /\bfix(es|ed|ing)?\b/i
  reSeqs [RE.bnd, litCI "fix",
          RE.opt (altList [litCI "es", litCI "ed", litCI "ing"]), RE.bnd],
  -- /\bbug\s*fix/i
  reSeqs [RE.bnd, litCI "bug", wsMany, litCI "fix"],
  -- /\bBUG:/i
  reSeqs [RE.bnd, litCI "BUG:"],
  -- /\bhotfix\b/i
  reSeqs [RE.bnd, litCI "hotfix", RE.bnd],
  -- /\bpatch(es|ed|ing)?\b/i
  reSeqs [RE.bnd, litCI "patch",
          RE.opt (altList [litCI "es", litCI "ed", litCI "ing"]), RE.bnd],
  -- /\bresolv(e|es|ed|ing)\s*(the\s*)?(issue|bug|error)/i
  reSeqs [RE.bnd, litCI "resolv",
          altList [litCI "e", litCI "es", litCI "ed", litCI "ing"], wsMany,
          RE.opt (reSeqs [litCI "the", wsMany]),
          altList [litCI "issue", litCI "bug", litCI "error"]],
  -- /\bcorrect(s|ed|ing)?\s*(the\s*)?(bug|issue|error|problem)/i
  reSeqs [RE.bnd, litCI "correct",
          RE.opt (altList [litCI "s", litCI "ed", litCI "ing"]), wsMany,
          RE.opt (reSeqs [litCI "the", wsMany]),
          altList [litCI "bug", litCI "issue", litCI "error", litCI "problem"]],
  -- /\brepair(s|ed|ing)?\b/i
  reSeqs [RE.bnd, litCI "repair",
          RE.opt (altList [litCI "s", litCI "ed", litCI "ing"]), RE.bnd],
  -- /\bhandle\s*(error|exception|null|undefined)/i
  reSeqs [RE.bnd, litCI "handle", wsMany,
          altList [litCI "error", litCI "exception", litCI "null",
                   litCI "undefined"]],
  -- /\bnull\s*check/i
  reSeqs [RE.bnd, litCI "null", wsMany, litCI "check"],
  -- /\bundefined\s*check/i
  reSeqs [RE.bnd, litCI "undefined", wsMany, litCI "check"],
  -- /\btry\s*{\s*.*\s*}\s*catch/i
  reSeqs [RE.bnd, litCI "try", wsMany, lit "\x7b", wsMany, dotMany, wsMany,
          lit "\x7d", wsMany, litCI "catch"],
  -- /\bif\s*\(\s*!\s*\w+\s*\)/   (no flags)
  reSeqs [RE.bnd, lit "if", wsMany, lit "(", wsMany, lit "!", wsMany, wMany1,
          wsMany, lit ")"],
  -- /\bwas\s*broken\b/i
  reSeqs [RE.bnd, litCI "was", wsMany, litCI "broken", RE.bnd],
  -- /\bbroken\b.*\bfix/i
  reSeqs [RE.bnd, litCI "broken", RE.bnd, dotMany, RE.bnd, litCI "fix"]]

/-- The ten `refactorPatterns` (all `i` except `\bDRY\b`). -/
def refactorPatterns : List RE := [
  reSeqs [RE.bnd, litCI "refactor",
          RE.opt (altList [litCI "s", litCI "ed", litCI "ing"]), RE.bnd],
  reSeqs [RE.bnd, litCI "restructur",
          altList [litCI "e", litCI "es", litCI "ed", litCI "ing"], RE.bnd],
  reSeqs [RE.bnd, litCI "clean", wsMany, litCI "up", RE.bnd],
  reSeqs [RE.bnd, litCI "simplif",
          altList [litCI "y", litCI "ies", litCI "ied", litCI "ying"], RE.bnd],
  reSeqs [RE.bnd, litCI "renam",
          altList [litCI "e", litCI "es", litCI "ed", litCI "ing"], RE.bnd],
  reSeqs [RE.bnd, litCI "mov",
          altList [litCI "e", litCI "es", litCI "ed", litCI "ing"], wsMany,
          altList [litCI "to", litCI "from", litCI "into"], RE.bnd],
  reSeqs [RE.bnd, litCI "extract",
          RE.opt (altList [litCI "s", litCI "ed", litCI "ing"]), wsMany,
          altList [litCI "function", litCI "method", litCI "class",
                   litCI "component"]],
  reSeqs [RE.bnd, litCI "inline",
          RE.opt (altList [litCI "s", litCI "d", litCI "ing"]), RE.bnd],
  reSeqs [RE.bnd, litCI "dedup", RE.opt (litCI "licate"), RE.bnd],
  reSeqs [RE.bnd, lit "DRY", RE.bnd]]

/-- The ten `chorePatterns` (all `i`; also tested against the lowercased
file paths). -/
def chorePatterns : List RE := [
  reSeqs [RE.bnd, litCI "dependenc", RE.alt (litCI "y") (litCI "ies"), RE.bnd],
  reSeqs [RE.bnd, litCI "upgrade", RE.bnd],
  reSeqs [RE.bnd, litCI "update", wsMany, RE.alt (litCI "version") (litCI "dep")],
  reSeqs [RE.bnd, litCI "bump", RE.bnd],
  reSeqs [RE.bnd, litCI "package.json", RE.bnd],
  reSeqs [RE.bnd, litCI "package-lock.json", RE.bnd],
  reSeqs [RE.bnd, litCI "yarn.lock", RE.bnd],
  reSeqs [RE.bnd, litCI ".gitignore", RE.bnd],
  reSeqs [RE.bnd, litCI "ci", RE.bnd, dotMany, RE.bnd,
          RE.alt (litCI "config") (litCI "setup"), RE.bnd],
  reSeqs [RE.bnd, litCI "lint", RE.opt (RE.alt (litCI "er") (litCI "ing")),
          RE.bnd]]

/-- The five `featPatterns` (all `i`). -/
def featPatterns : List RE := [
  reSeqs [RE.bnd, litCI "add",
          RE.opt (altList [litCI "s", litCI "ed", litCI "ing"]), wsMany1,
          altList [litCI "new", litCI "feature", litCI "support",
                   litCI "ability"]],
  reSeqs [RE.bnd, litCI "implement",
          RE.opt (altList [litCI "s", litCI "ed", litCI "ing"]), RE.bnd],
  reSeqs [RE.bnd, litCI "introduc",
          altList [litCI "e", litCI "es", litCI "ed", litCI "ing"], RE.bnd],
  reSeqs [RE.bnd, litCI "create",
          RE.opt (altList [litCI "s", litCI "d", litCI "ing"]), RE.bnd],
  reSeqs [RE.bnd, litCI "enable",
          RE.opt (altList [litCI "s", litCI "d", litCI "ing"]), RE.bnd]]

-- /^\+\s*export\s+(function|class|const|let|var|interface|type)/m
def newExportsRE : RE :=
  reSeqs [RE.bol, lit "+", wsMany, lit "export", wsMany1,
          altList [lit "function", lit "class", lit "const", lit "let",
                   lit "var", lit "interface", lit "type"]]

-- /^\+\s*(async\s+)?function\s+\w+/m
def newFunctionsRE : RE :=
  reSeqs [RE.bol, lit "+", wsMany, RE.opt (reSeqs [lit "async", wsMany1]),
          lit "function", wsMany1, wMany1]

-- /^\+\s*class\s+\w+/m
def newClassesRE : RE :=
  reSeqs [RE.bol, lit "+", wsMany, lit "class", wsMany1, wMany1]

/-- `AnalyzerService.hasLogicChanges`. -/
def hasLogicChanges (diff : String) : Bool :=
  let lines := (splitChar '\n' diff).filter (fun line =>
    (strStarts line "+" || strStarts line "-") &&
    !(strStarts line "+++") && !(strStarts line "---"))
  lines.any (fun line =>
    let content := trimJS (strDrop line 1)
    !(content.data.length = 0 || strStarts content "//" || strStarts content "/*" ||
      strStarts content "*" || content == "\x7b" || content == "\x7d" ||
      content == ";"))

/-- Count of `diff.match(/^\+[^+]/gm)` (resp. `^-[^-]`) occurrences: line
starts whose first character is the mark and whose following character
exists and differs from the mark. -/
def countMarkedLines (mark : Char) : Bool → List Char → Nat
  | _, [] => 0
  | _, [_] => 0
  | atStart, c :: d :: rest =>
    (if atStart && c == mark && d != mark then 1 else 0) +
      countMarkedLines mark (c == '\n') (d :: rest)

/-- `AnalyzerService.determineCommitType`. -/
def determineCommitType (filesAffected : FilesAffected) (diff : String)
    (stagedFiles : List FileChange) : CommitType :=
  let diffLower := strToLower diff
  let filePaths := stagedFiles.map (fun f => strToLower f.path)
  if filesAffected.test > 0 ∧ filesAffected.source = 0 ∧ filesAffected.docs = 0 then
    .test
  else if filesAffected.docs > 0 ∧ filesAffected.source = 0 ∧ filesAffected.test = 0 then
    .docs
  else if filesAffected.config > 0 ∧ filesAffected.source = 0 ∧
          filesAffected.test = 0 ∧ filesAffected.docs = 0 then
    .chore
  else
    let isStyleChange := filePaths.any (fun p =>
      strEnds p ".css" || strEnds p ".scss" || strEnds p ".sass" ||
      strEnds p ".less" || strEnds p ".styl" || strIncludes p ".style" ||
      strIncludes p "styles/")
    let isFormattingChange := formattingPatterns.any (fun r => reTest r diff)
    if isStyleChange || (isFormattingChange && !hasLogicChanges diff) then
      .style
    else if perfPatterns.any (fun r => reTest r diffLower) then
      .perf
    else if fixPatterns.any (fun r => reTest r diff) then
      .fix
    else
      let hasOnlyModifications := stagedFiles.all (fun f => f.status == "M")
      let hasNewExports := reTest newExportsRE diff
      let hasNewFunctions := reTest newFunctionsRE diff
      let hasNewClasses := reTest newClassesRE diff
      if refactorPatterns.any (fun r => reTest r diff) then
        .refactor
      else
        let addedLines := countMarkedLines '+' true diff.data
        let removedLines := countMarkedLines '-' true diff.data
        -- near-equal churn: min/max > 0.3; the JS double comparison agrees
        -- with the exact rational one for all attainable line counts
        if hasOnlyModifications && !hasNewExports && !hasNewFunctions &&
           !hasNewClasses && addedLines > 0 && removedLines > 0 &&
           decide ((min addedLines removedLines : ℚ) / (max addedLines removedLines) > 3 / 10) then
          .refactor
        else if chorePatterns.any (fun r => reTest r diff) ||
                chorePatterns.any (fun r => filePaths.any (fun f => reTest r f)) then
          .chore
        else
          let hasNewFiles := stagedFiles.any (fun f => f.status == "A")
          if hasNewFiles || hasNewExports || hasNewFunctions || hasNewClasses then
            .feat
          else if featPatterns.any (fun r => reTest r diff) then
            .feat
          else if filesAffected.source > 0 then
            if hasOnlyModifications then .refactor else .feat
          else
            .chore

/-! ## Description synthesis (`AnalyzerService.generateDescription`) -/

/-- `AnalyzerService.generateDescription`.  The single-file branch of the
source returns early only for the four known statuses; any other status
falls through to the remaining rules, which the `Option` models. -/
def generateDescription (filesAffected : FilesAffected)
    (fileStatuses : FileStatusCounts) (stagedFiles : List FileChange)
    (_diff : String) : String :=
  let singleResult : Option String :=
    if stagedFiles.length = 1 then
      let file := stagedFiles.headD ⟨"", ""⟩
      let fileName := getFileName file.path
      if file.status == "A" then some ("add " ++ fileName)
      else if file.status == "D" then some ("remove " ++ fileName)
      else if file.status == "M" then some ("update " ++ fileName)
      else if file.status == "R" then some ("rename " ++ fileName)
      else none
    else none
  match singleResult with
  | some r => r
  | none =>
    if filesAffected.test > 0 ∧ filesAffected.source = 0 then
      "update test files"
    else if filesAffected.docs > 0 ∧ filesAffected.source = 0 then
      "update documentation"
    else if filesAffected.config > 0 ∧ filesAffected.source = 0 then
      "update configuration"
    else
      let parts1 :=
        if fileStatuses.added > 0 then
          ["add " ++ toString fileStatuses.added ++ " file" ++ plural fileStatuses.added]
        else []
      let parts2 :=
        if fileStatuses.modified > 0 then
          if parts1.length = 0 then
            parts1 ++ ["update " ++ toString fileStatuses.modified ++ " file" ++
                        plural fileStatuses.modified]
          else parts1
        else parts1
      let parts3 :=
        if fileStatuses.deleted > 0 then
          parts2 ++ ["remove " ++ toString fileStatuses.deleted ++ " file" ++
                      plural fileStatuses.deleted]
        else parts2
      if parts3.length > 0 then strIntercalate " and " parts3
      else "update " ++ toString stagedFiles.length ++ " file" ++
             plural stagedFiles.length

/-! ## Scope resolution (`AnalyzerService.determineScope`,
`HistoryService.getSuggestedScope`) -/

/-- The fixed allow-list of conventional scope names. -/
def validScopes : List String :=
  ["api", "ui", "auth", "db", "core", "utils", "components", "services"]

/-- `AnalyzerService.determineScope` (configuration explicit).  The source's
`matchingFiles.length > paths.length / 2` is an exact comparison of
integers, so it is written `2 * matching > paths.length`. -/
def determineScope (cfg : CommitGenieConfig) (stagedFiles : List FileChange) :
    Option String :=
  if stagedFiles.length = 0 then none
  else
    let paths := stagedFiles.map (fun f => f.path)
    let configScopes := cfg.scopes.getD []
    let fromAllMatch : Option String :=
      if configScopes.length > 0 then
        configScopes.findSome? (fun m =>
          if (paths.filter (fun p => strIncludes p m.pattern)).length = paths.length
          then some m.scope else none)
      else none
    match fromAllMatch with
    | some s => some s
    | none =>
    let fromMajority : Option String :=
      if configScopes.length > 0 then
        configScopes.findSome? (fun m =>
          if 2 * (paths.filter (fun p => strIncludes p m.pattern)).length > paths.length
          then some m.scope else none)
      else none
    match fromMajority with
    | some s => some s
    | none =>
      let firstPath := paths.headD ""
      let parts := splitChar '/' firstPath
      if parts.length > 1 then
        let potentialScope := parts.headD ""
        if validScopes.contains (strToLower potentialScope) then some potentialScope
        else none
      else none

/-- `HistoryService.getSuggestedScope`. -/
def getSuggestedScope (analysis : CommitHistoryAnalysis)
    (filePaths : List String) : Option String :=
  if analysis.commonScopes.length = 0 then none
  else
    analysis.commonScopes.findSome? (fun scope =>
      if filePaths.any (fun fp => strIncludes (strToLower fp) (strToLower scope)) then
        some scope
      else none)

/-! ## Body, templates and full message
(`AnalyzerService.generateBody` / `applyTemplate` / `buildFullMessage`) -/

/-- `AnalyzerService.generateBody`. -/
def generateBody (analysis : ChangeAnalysis) : Option String :=
  if !analysis.isLargeChange then none
  else
    let g := analysis.fileChanges
    let lines :=
      (if g.added.length > 0 then
        ["- Add " ++ strIntercalate ", " g.added] else []) ++
      (if g.modified.length > 0 then
        ["- Update " ++ strIntercalate ", " (g.modified.take 5) ++
          (if g.modified.length > 5 then
            " and " ++ toString (g.modified.length - 5) ++ " more" else "")]
       else []) ++
      (if g.deleted.length > 0 then
        ["- Remove " ++ strIntercalate ", " g.deleted] else []) ++
      (if g.renamed.length > 0 then
        ["- Rename " ++ strIntercalate ", " g.renamed] else [])
    if lines.length > 0 then some (strIntercalate "\n" lines) else none

/-- `AnalyzerService.applyTemplate`. -/
def applyTemplate (template : String) (type : CommitType)
    (scope : Option String) (description : String) (includeEmoji : Bool)
    (isBreaking : Bool) : String :=
  let emoji := if includeEmoji then COMMIT_EMOJIS type else ""
  let breakingIndicator := if isBreaking then "!" else ""
  let r1 := replaceFirst
    (replaceFirst (replaceFirst template "{emoji}" emoji)
      "{type}" (type.toStr ++ breakingIndicator))
    "{description}" description
  let r2 :=
    if optTruthy scope then replaceFirst r1 "{scope}" (scope.getD "")
    else replaceFirst (replaceFirst r1 "({scope})" "") "{scope}" ""
  trimJS ⟨collapseWs r2.data⟩

/-- `AnalyzerService.buildFullMessage` (configuration explicit). -/
def buildFullMessage (cfg : CommitGenieConfig) (type : CommitType)
    (scope : Option String) (description : String) (body : Option String)
    (includeEmoji : Bool) (ticketInfo : Option TicketInfo)
    (isBreaking : Bool) (breakingReasons : List String) : String :=
  let includeBreakingFooter :=
    !((cfg.breakingChangeDetection.bind (fun bc => bc.includeFooter)) == some false)
  let base :=
    match cfg.templates with
    | some templates =>
      let template :=
        if optTruthy scope then
          strOr templates.defaultTemplate "{emoji} {type}({scope}): {description}"
        else
          strOr templates.noScope "{emoji} {type}: {description}"
      applyTemplate template type scope description includeEmoji isBreaking
    | none =>
      (if includeEmoji then COMMIT_EMOJIS type ++ " " else "") ++
      type.toStr ++
      (if optTruthy scope then "(" ++ scope.getD "" ++ ")" else "") ++
      (if isBreaking then "!" else "") ++
      ": " ++ description
  let withBody :=
    if optTruthy body then base ++ "\n\n" ++ body.getD "" else base
  let withBreaking :=
    if isBreaking && includeBreakingFooter && breakingReasons.length > 0 then
      withBody ++ "\n\nBREAKING CHANGE: " ++ breakingReasons.headD "" ++
        String.join ((breakingReasons.drop 1).map (fun r => "\n- " ++ r))
    else withBody
  match ticketInfo with
  | some t => withBreaking ++ "\n\n" ++ strOr t.refLabel "Refs:" ++ " " ++ t.id
  | none => withBreaking

/-! ## Whole-changeset analysis (`AnalyzerService.analyzeChanges`) -/

/-- The per-category file-type counts accumulated by `analyzeChanges`. -/
def countFileTypes (stagedFiles : List FileChange) : FilesAffected where
  test := stagedFiles.countP (fun f => detectFileType f.path = FileType.test)
  docs := stagedFiles.countP (fun f => detectFileType f.path = FileType.docs)
  config := stagedFiles.countP (fun f => detectFileType f.path = FileType.config)
  source := stagedFiles.countP (fun f => detectFileType f.path = FileType.source)

/-- The per-status file-name groups accumulated by `analyzeChanges`. -/
def groupFileChanges (stagedFiles : List FileChange) : FileChangeGroups where
  added := (stagedFiles.filter (fun f => f.status == "A")).map (fun f => getFileName f.path)
  modified := (stagedFiles.filter (fun f => f.status == "M")).map (fun f => getFileName f.path)
  deleted := (stagedFiles.filter (fun f => f.status == "D")).map (fun f => getFileName f.path)
  renamed := (stagedFiles.filter (fun f => f.status == "R")).map (fun f => getFileName f.path)

/-- `AnalyzerService.analyzeChanges`, with the collaborator facts (staged
files, diff text, diff stats, configuration) as explicit inputs. -/
def analyzeChanges (cfg : CommitGenieConfig) (stagedFiles : List FileChange)
    (diff : String) (stats : DiffStats) : ChangeAnalysis :=
  let filesAffected := countFileTypes stagedFiles
  let fileChanges := groupFileChanges stagedFiles
  let totalChanges := stats.insertions + stats.deletions
  let isLargeChange := stagedFiles.length ≥ 3 || totalChanges ≥ 100
  let commitType := determineCommitType filesAffected diff stagedFiles
  let description := generateDescription filesAffected
    ⟨fileChanges.added.length, fileChanges.modified.length,
     fileChanges.deleted.length, fileChanges.renamed.length⟩ stagedFiles diff
  let scope := determineScope cfg stagedFiles
  let breaking := detectBreakingChanges cfg diff stagedFiles
  { commitType := commitType
    scope := scope
    description := description
    filesAffected := filesAffected
    fileChanges := fileChanges
    isLargeChange := isLargeChange
    isBreakingChange := breaking.isBreaking
    breakingChangeReasons := breaking.reasons }

/-- `AnalyzerService.generateAlternativeDescription`. -/
def generateAlternativeDescription (analysis : ChangeAnalysis) : String :=
  let g := analysis.fileChanges
  let fa := analysis.filesAffected
  let totalFiles := g.added.length + g.modified.length + g.deleted.length +
    g.renamed.length
  let singleResult : Option String :=
    if totalFiles = 1 then
      if g.added.length = 1 then some ("implement " ++ g.added.headD "")
      else if g.modified.length = 1 then some ("improve " ++ g.modified.headD "")
      else none
    else none
  match singleResult with
  | some r => r
  | none =>
    let parts :=
      (if fa.source > 0 then
        [toString fa.source ++ " source file" ++ plural fa.source] else []) ++
      (if fa.test > 0 then [toString fa.test ++ " test" ++ plural fa.test] else []) ++
      (if fa.docs > 0 then [toString fa.docs ++ " doc" ++ plural fa.docs] else []) ++
      (if fa.config > 0 then
        [toString fa.config ++ " config" ++ plural fa.config] else [])
    if parts.length > 0 then "update " ++ strIntercalate ", " parts
    else analysis.description

/-! ## History analysis (`HistoryService`) -/

/-- `EMOJI_PATTERN = /^[\u{1F300}-\u{1F9FF}]|^[\u{2600}-\u{26FF}]|^[\u{2700}-\u{27BF}]|^:[\w+-]+:/u`:
the matched text at the start of the subject, if any. -/
def emojiMatch (subject : String) : Option String :=
  match subject.data with
  | [] => none
  | c :: rest =>
    if (0x1F300 ≤ c.val && c.val ≤ 0x1F9FF) ||
       (0x2600 ≤ c.val && c.val ≤ 0x26FF) ||
       (0x2700 ≤ c.val && c.val ≤ 0x27BF) then
      some ⟨[c]⟩
    else if c == ':' then
      let run := rest.takeWhile (fun x => isWordChar x || x == '+' || x == '-')
      if run.length > 0 && (rest.drop run.length).head? == some ':' then
        some ⟨':' :: (run ++ [':'])⟩
      else none
    else none

/-- The type alternatives of `CONVENTIONAL_COMMIT_PATTERN` (none is a
prefix of another, so at most one can match a given subject). -/
def CONVENTIONAL_TYPES : List String :=
  ["feat", "fix", "docs", "style", "refactor", "test", "chore", "perf", "ci",
   "build", "revert"]

/-- A match of `CONVENTIONAL_COMMIT_PATTERN`: length of `match[0]`, the
lowercased `match[1]` and the raw `match[2]` scope group. -/
structure ConvMatch where
  length : Nat
  type : String
  scopeGroup : Option String
deriving DecidableEq, Repr

/-- `!?:` at the head of the list (greedy `!?`): characters consumed. -/
def tailBangColon : List Char → Option Nat
  | '!' :: ':' :: _ => some 2
  | ':' :: _ => some 1
  | _ => none

/-- Greedy split for `\(.+\)!?:` on the text after the opening parenthesis:
the largest `j ≥ 1` whose character is `)`, preceded only by non-newline
characters and followed by `!?:` (paired with the consumed tail length). -/
def findScopeSplit (r2 : List Char) : Option (Nat × Nat) :=
  (List.range r2.length).reverse.findSome? (fun j =>
    if 1 ≤ j ∧ r2.getD j ' ' = ')' ∧ (r2.take j).all (fun c => c ≠ '\n') then
      (tailBangColon (r2.drop (j + 1))).map (fun k => (j, k))
    else none)

/-- `CONVENTIONAL_COMMIT_PATTERN = /^(feat|fix|docs|style|refactor|test|chore|perf|ci|build|revert)(\(.+\))?!?:/i`
with the backtracking semantics of the JavaScript engine (the greedy scope
group is preferred, and within it the longest `.+`). -/
def matchConventional (subject : String) : Option ConvMatch :=
  let cs := subject.data
  match CONVENTIONAL_TYPES.find? (fun t => listStarts t.data (cs.map Char.toLower)) with
  | none => none
  | some t =>
    let rest := cs.drop t.length
    let withScope : Option ConvMatch :=
      match rest with
      | '(' :: r2 =>
        (findScopeSplit r2).map (fun jk =>
          ⟨t.length + 1 + jk.1 + 1 + jk.2, t, some ⟨'(' :: (r2.take jk.1 ++ [')'])⟩⟩)
      | _ => none
    match withScope with
    | some m => some m
    | none => (tailBangColon rest).map (fun k => ⟨t.length + k, t, none⟩)

/-- `match[2].replace(/[()]/g, '')`. -/
def extractScopeKey (sg : String) : String :=
  ⟨sg.data.filter (fun c => c ≠ '(' ∧ c ≠ ')')⟩

/-- Frequency bump on an insertion-ordered association list (the model of
the source's plain-object counters). -/
def bumpCount (m : List (String × Nat)) (k : String) : List (String × Nat) :=
  if m.any (fun p => p.1 == k) then
    m.map (fun p => if p.1 == k then (p.1, p.2 + 1) else p)
  else m ++ [(k, 1)]

/-- The leading-verb candidate of a subject: strip the emoji match, then
the conventional-commit match, trim, take the first word lowercased, and
keep it only if longer than two characters and all `a`–`z`. -/
def verbCandidate (subject : String) : Option String :=
  let s1 := match emojiMatch subject with
            | some m => strDrop subject m.length
            | none => subject
  let s2 := match matchConventional s1 with
            | some m => strDrop s1 m.length
            | none => s1
  let cleaned := trimJS s2
  let firstWord : String := ⟨cleaned.data.takeWhile (fun c => !isWsChar c)⟩
  let fw := strToLower firstWord
  if fw.length > 2 ∧ fw.data.all (fun c => 'a' ≤ c ∧ c ≤ 'z') then some fw
  else none

/-- Stable insertion by descending count (the model of the source's stable
`sort((a, b) => b[1] - a[1])`). -/
def insertByCountDesc (x : String × Nat) : List (String × Nat) → List (String × Nat)
  | [] => [x]
  | y :: ys => if x.2 ≥ y.2 then x :: y :: ys else y :: insertByCountDesc x ys

def sortByCountDesc : List (String × Nat) → List (String × Nat)
  | [] => []
  | x :: xs => insertByCountDesc x (sortByCountDesc xs)

/-- `HistoryService.performAnalysis`.  The two thresholds
(`emojiCount > commits.length * 0.3`, `conventionalCount > commits.length * 0.5`)
are modelled over `ℚ`; the IEEE-754 comparison of the source agrees with the
exact rational one for every attainable count. -/
def performAnalysis (commits : List HistoricalCommit) : CommitHistoryAnalysis :=
  let n := commits.length
  let emojiCount := commits.countP (fun c => (emojiMatch c.subject).isSome)
  let conventionalCount := commits.countP (fun c => (matchConventional c.subject).isSome)
  let totalLength := (commits.map (fun c => c.subject.length)).sum
  let emojiFrequency := (commits.filterMap (fun c => emojiMatch c.subject)).foldl bumpCount []
  let typeFrequency :=
    (commits.filterMap (fun c => (matchConventional c.subject).map (fun m => m.type))).foldl bumpCount []
  let scopeCount :=
    (commits.filterMap (fun c =>
      (matchConventional c.subject).bind (fun m => m.scopeGroup.map extractScopeKey))).foldl bumpCount []
  let verbCount := (commits.filterMap (fun c => verbCandidate c.subject)).foldl bumpCount []
  { usesEmojis := decide ((emojiCount : ℚ) > (n : ℚ) * (3 / 10))
    usesConventionalCommits := decide ((conventionalCount : ℚ) > (n : ℚ) * (1 / 2))
    commonScopes := ((sortByCountDesc scopeCount).take 10).map (fun p => p.1)
    commonVerbs := ((sortByCountDesc verbCount).take 10).map (fun p => p.1)
    -- Math.round(totalLength / commits.length)
    averageLength := if n = 0 then 0 else (2 * totalLength + n) / (2 * n)
    emojiFrequency := emojiFrequency
    typeFrequency := typeFrequency }

/-- `HistoryService.getDefaultAnalysis`. -/
def getDefaultAnalysis : CommitHistoryAnalysis where
  usesEmojis := true
  usesConventionalCommits := true
  commonScopes := []
  commonVerbs := ["add", "update", "fix", "remove", "refactor"]
  averageLength := 50
  emojiFrequency := []
  typeFrequency := []

/-! ## Suggestion composition (`AnalyzerService.generateMultipleSuggestions`) -/

/-- One conditional `suggestions.push({id: suggestions.length + 1, ...})`
step of the source. -/
def pushIf (b : Bool) (l : List MessageSuggestion) (label : String)
    (msg : CommitMessage) : List MessageSuggestion :=
  if b then l ++ [⟨l.length + 1, msg, label⟩] else l

/-- The sequence of conditional pushes after the first suggestion (the
source's hard-coded `id: 2` on the second suggestion equals
`suggestions.length + 1` there, since exactly one suggestion precedes it). -/
def composeSuggestions (first : MessageSuggestion)
    (steps : List (Bool × String × CommitMessage)) : List MessageSuggestion :=
  steps.foldl (fun l st => pushIf st.1 l st.2.1 st.2.2) [first]

/-- `AnalyzerService.generateMultipleSuggestions` with the collaborator
facts explicit: `ticketInfo` is `HistoryService.detectTicketFromBranch()`
and `history` is `HistoryService.analyzeCommitHistory()`. -/
def generateMultipleSuggestions (cfg : CommitGenieConfig)
    (stagedFiles : List FileChange) (diff : String) (stats : DiffStats)
    (ticketInfo : Option TicketInfo) (history : CommitHistoryAnalysis) :
    List MessageSuggestion :=
  let analysis := analyzeChanges cfg stagedFiles diff stats
  let includeEmoji := cfg.includeEmoji.getD history.usesEmojis
  let body := generateBody analysis
  let scope :=
    if optTruthy analysis.scope then analysis.scope
    else getSuggestedScope history (stagedFiles.map (fun f => f.path))
  let mk := fun (sc : Option String) (desc : String) (bd : Option String)
    (tk : Option TicketInfo) (br : Bool) (reasons : List String) =>
    { type := analysis.commitType
      scope := sc
      description := desc
      body := bd
      full := buildFullMessage cfg analysis.commitType sc desc bd includeEmoji
        tk br reasons
      isBreaking := br : CommitMessage }
  let altDescription := generateAlternativeDescription analysis
  composeSuggestions
    ⟨1,
     mk scope analysis.description body ticketInfo analysis.isBreakingChange
       analysis.breakingChangeReasons,
     if analysis.isBreakingChange then "Breaking Change" else "Recommended"⟩
    [(optTruthy scope, "Concise",
      mk none analysis.description body ticketInfo analysis.isBreakingChange
        analysis.breakingChangeReasons),
     (!(altDescription == "") && !(altDescription == analysis.description),
      "Detailed",
      mk scope altDescription body ticketInfo analysis.isBreakingChange
        analysis.breakingChangeReasons),
     (optTruthy body, "Compact",
      mk scope analysis.description none ticketInfo analysis.isBreakingChange
        analysis.breakingChangeReasons),
     (ticketInfo.isSome, "No Ticket",
      mk scope analysis.description body none analysis.isBreakingChange
        analysis.breakingChangeReasons),
     (analysis.isBreakingChange, "No Breaking Flag",
      mk scope analysis.description body ticketInfo false [])]

/-! ## Specification-side definitions used by the claim theorems -/

/-- The four structural reason labels of the pattern dispatch. -/
def structuralLabels : List String :=
  ["Removed exported members", "Changed function signatures",
   "Removed class methods", "Major version change detected"]

/-- The default (template-free) rendering layout as the amended claim reads:
emoji and space (if included), the type, `(scope)` for a present scope, the
breaking indicator `!` after the parenthesised scope, `": "` and the
description, then the body block, the `BREAKING CHANGE:` block and the
ticket footer. -/
def renderDefaultLayout (type : CommitType) (scope : Option String)
    (description : String) (body : Option String) (includeEmoji : Bool)
    (ticketInfo : Option TicketInfo) (isBreaking : Bool)
    (breakingReasons : List String) (footerEnabled : Bool) : String :=
  let subject :=
    (if includeEmoji then COMMIT_EMOJIS type ++ " " else "") ++
    type.toStr ++
    (match scope with
     | some sc => if sc = "" then "" else "(" ++ sc ++ ")"
     | none => "") ++
    (if isBreaking then "!" else "") ++
    ": " ++ description
  let withBody :=
    match body with
    | some b => if b = "" then subject else subject ++ "\n\n" ++ b
    | none => subject
  let withFooter :=
    if isBreaking = true ∧ footerEnabled = true ∧ breakingReasons ≠ [] then
      withBody ++ "\n\nBREAKING CHANGE: " ++ breakingReasons.headD "" ++
        String.join ((breakingReasons.drop 1).map (fun r => "\n- " ++ r))
    else withBody
  match ticketInfo with
  | some t => withFooter ++ "\n\n" ++ strOr t.refLabel "Refs:" ++ " " ++ t.id
  | none => withFooter

/-- The mixed-changeset description as the amended claim reads: the add part,
then an update part only when there are no added files, then the remove
part, joined by `" and "`; otherwise the `"update N file(s)"` fallback. -/
def specMixedDescription (added modified deleted total : Nat) : String :=
  let parts :=
    (if added > 0 then
      ["add " ++ toString added ++ " file" ++ plural added] else []) ++
    (if modified > 0 ∧ added = 0 then
      ["update " ++ toString modified ++ " file" ++ plural modified] else []) ++
    (if deleted > 0 then
      ["remove " ++ toString deleted ++ " file" ++ plural deleted] else [])
  if parts ≠ [] then strIntercalate " and " parts
  else "update " ++ toString total ++ " file" ++ plural total

/-- The scope-resolution precedence exactly as the claim states it:
(a) a mapping matching all changed paths, else (b) a mapping matching more
than half of them, else (c) the first path segment when it belongs to the
conventional allow-list, else (d) none. -/
def claimResolveScope (cfg : CommitGenieConfig) (paths : List String) :
    Option String :=
  let mappings := cfg.scopes.getD []
  match mappings.findSome? (fun m =>
    if (paths.filter (fun p => strIncludes p m.pattern)).length = paths.length
    then some m.scope else none) with
  | some s => some s
  | none =>
    match mappings.findSome? (fun m =>
      if 2 * (paths.filter (fun p => strIncludes p m.pattern)).length > paths.length
      then some m.scope else none) with
    | some s => some s
    | none =>
      let firstPath := paths.headD ""
      let parts := splitChar '/' firstPath
      let potentialScope := parts.headD ""
      if validScopes.contains (strToLower potentialScope) then some potentialScope
      else none

/-- The amended precedence: as `claimResolveScope`, but step (c) applies
only when the first changed path has more than one `/`-separated segment. -/
def amendedResolveScope (cfg : CommitGenieConfig) (paths : List String) :
    Option String :=
  let mappings := cfg.scopes.getD []
  match mappings.findSome? (fun m =>
    if (paths.filter (fun p => strIncludes p m.pattern)).length = paths.length
    then some m.scope else none) with
  | some s => some s
  | none =>
    match mappings.findSome? (fun m =>
      if 2 * (paths.filter (fun p => strIncludes p m.pattern)).length > paths.length
      then some m.scope else none) with
    | some s => some s
    | none =>
      let firstPath := paths.headD ""
      let parts := splitChar '/' firstPath
      if parts.length > 1 then
        let potentialScope := parts.headD ""
        if validScopes.contains (strToLower potentialScope) then some potentialScope
        else none
      else none

/-! ## Library lemmas about the deduplication of reasons -/

theorem dedupFirstAux_mem (x : String) :
    ∀ (l seen : List String), x ∈ dedupFirstAux seen l ↔ x ∈ l ∧ x ∉ seen
  | [], seen => by simp [dedupFirstAux]
  | y :: ys, seen => by
    by_cases hy : y ∈ seen
    · rw [dedupFirstAux, if_pos hy, dedupFirstAux_mem x ys seen]
      constructor
      · rintro ⟨h1, h2⟩
        exact ⟨List.mem_cons_of_mem y h1, h2⟩
      · rintro ⟨h1, h2⟩
        rcases List.mem_cons.mp h1 with rfl | h1
        · exact absurd hy h2
        · exact ⟨h1, h2⟩
    · rw [dedupFirstAux, if_neg hy]
      constructor
      · intro hmem
        rcases List.mem_cons.mp hmem with rfl | hmem
        · exact ⟨List.mem_cons_self x ys, hy⟩
        · rw [dedupFirstAux_mem x ys (y :: seen)] at hmem
          exact ⟨List.mem_cons_of_mem y hmem.1,
                 fun hs => hmem.2 (List.mem_cons_of_mem y hs)⟩
      · rintro ⟨h1, h2⟩
        rcases List.mem_cons.mp h1 with rfl | h1
        · exact List.mem_cons_self x _
        · by_cases hxy : x = y
          · subst hxy; exact List.mem_cons_self x _
          · refine List.mem_cons_of_mem y ?_
            rw [dedupFirstAux_mem x ys (y :: seen)]
            refine ⟨h1, fun hs => ?_⟩
            rcases List.mem_cons.mp hs with h | h
            · exact hxy h
            · exact h2 h

theorem dedupFirstAux_nodup :
    ∀ (l seen : List String), (dedupFirstAux seen l).Nodup
  | [], _ => List.nodup_nil
  | y :: ys, seen => by
    rw [dedupFirstAux]
    split
    · exact dedupFirstAux_nodup ys seen
    · refine List.nodup_cons.mpr ⟨?_, dedupFirstAux_nodup ys (y :: seen)⟩
      intro hmem
      rw [dedupFirstAux_mem] at hmem
      exact hmem.2 (List.mem_cons_self y seen)

theorem dedupFirstAux_sublist :
    ∀ (l seen : List String), List.Sublist (dedupFirstAux seen l) l
  | [], _ => List.Sublist.refl []
  | y :: ys, seen => by
    rw [dedupFirstAux]
    split
    · exact (dedupFirstAux_sublist ys seen).cons y
    · exact (dedupFirstAux_sublist ys (y :: seen)).cons₂ y

theorem dedupFirst_mem (x : String) (l : List String) :
    x ∈ dedupFirst l ↔ x ∈ l := by
  rw [dedupFirst, dedupFirstAux_mem]
  simp

theorem dedupFirst_nodup (l : List String) : (dedupFirst l).Nodup :=
  dedupFirstAux_nodup l []

theorem dedupFirst_sublist (l : List String) :
    List.Sublist (dedupFirst l) l :=
  dedupFirstAux_sublist l []

theorem keywordReason_notin_structural (k : String) :
    ("Contains \"" ++ k ++ "\" keyword") ∉ structuralLabels := by
  intro h
  have h2 : ("Contains \"" ++ k ++ "\" keyword").data.take 2 = ['C', 'o'] := rfl
  simp only [structuralLabels, List.mem_cons, List.not_mem_nil, or_false] at h
  rcases h with h | h | h | h <;> rw [h] at h2 <;> exact absurd h2 (by decide)

theorem deletedReason_notin_structural (s : String) :
    ("Deleted source files: " ++ s) ∉ structuralLabels := by
  intro h
  have h2 : ("Deleted source files: " ++ s).data.take 2 = ['D', 'e'] := rfl
  simp only [structuralLabels, List.mem_cons, List.not_mem_nil, or_false] at h
  rcases h with h | h | h | h <;> rw [h] at h2 <;> exact absurd h2 (by decide)

theorem keywordReasons_filter_structural (cfg : CommitGenieConfig) (diff : String) :
    (keywordReasons cfg diff).filter (fun r => r ∈ structuralLabels) = [] := by
  rw [List.filter_eq_nil_iff]
  intro a ha
  rw [keywordReasons, List.mem_filterMap] at ha
  obtain ⟨k, -, hk⟩ := ha
  split at hk
  · cases hk
    simpa using keywordReason_notin_structural k
  · cases hk

theorem deletedReasons_filter_structural (files : List FileChange) :
    (deletedReasons files).filter (fun r => r ∈ structuralLabels) = [] := by
  rw [deletedReasons]
  split
  · simpa using deletedReason_notin_structural _
  · rfl

theorem renamedReasons_filter_structural (files : List FileChange) :
    (renamedReasons files).filter (fun r => r ∈ structuralLabels) = [] := by
  rw [renamedReasons]
  split
  · decide
  · rfl

/-! ## Claim theorems -/

/-- **C5.** For every configuration, diff text and file list, the detector
reports `isBreaking` exactly when its reasons list is non-empty, and the
reasons list has no duplicates; in particular a diff containing the keyword
`removed` five times yields exactly one reason for that keyword. -/
theorem c5_breaking_iff_nonempty_and_nodup :
    (∀ (cfg : CommitGenieConfig) (diff : String) (files : List FileChange),
      ((detectBreakingChanges cfg diff files).isBreaking = true ↔
        (detectBreakingChanges cfg diff files).reasons ≠ []) ∧
      (detectBreakingChanges cfg diff files).reasons.Nodup) ∧
    (detectBreakingChanges DEFAULT_CONFIG
        "removed removed removed removed removed" []).reasons.count
      "Contains \"removed\" keyword" = 1 := by
  constructor
  · intro cfg diff files
    unfold detectBreakingChanges
    split
    · exact ⟨by simp, List.nodup_nil⟩
    · refine ⟨?_, dedupFirst_nodup _⟩
      simp [List.length_pos]
  · decide

/-- **C3 counterexample.** The diff
`-export function oldApi(): void\n-"version": "2.0.0"` matches both the
removed-export pattern family and the major-version-bump family, yet the
detector returns only the single reason of the first matching pattern: the
claimed one-reason-per-matched-family behaviour fails. -/
theorem c3_counterexample :
    (detectBreakingChanges DEFAULT_CONFIG
        "-export function oldApi(): void\n-\"version\": \"2.0.0\"" []).reasons =
      ["Removed exported members"] ∧
    reTest breakingExportRE
      "-export function oldApi(): void\n-\"version\": \"2.0.0\"" = true ∧
    reTest breakingVersionRE
      "-export function oldApi(): void\n-\"version\": \"2.0.0\"" = true ∧
    "Major version change detected" ∉
      (detectBreakingChanges DEFAULT_CONFIG
        "-export function oldApi(): void\n-\"version\": \"2.0.0\"" []).reasons := by
  exact ⟨by decide, by decide, by decide, by decide⟩

set_option maxHeartbeats 2000000 in
set_option maxHeartbeats 1000000 in
set_option maxHeartbeats 1000000 in
/-- **C3 (amended).** The structural pattern check contributes at most one
reason in total per run — the reasons list never contains more than one of
the four structural labels — and the reason it contributes (whenever
detection is not disabled) is the label of the first matching pattern in
the fixed pattern order. -/
theorem c3_structural_at_most_one_reason :
    (∀ (cfg : CommitGenieConfig) (diff : String) (files : List FileChange),
      ((detectBreakingChanges cfg diff files).reasons.filter
        (fun r => r ∈ structuralLabels)).length ≤ 1) ∧
    (∀ (cfg : CommitGenieConfig) (diff : String) (files : List FileChange)
      (s : String),
      cfg.breakingChangeDetection.bind (fun bc => bc.enabled) ≠ some false →
      patternReason diff = some s →
      s ∈ (detectBreakingChanges cfg diff files).reasons) := by
  constructor
  · intro cfg diff files
    unfold detectBreakingChanges
    split
    · simp
    · have hsub :=
        List.Sublist.filter (fun r => decide (r ∈ structuralLabels))
          (dedupFirst_sublist (keywordReasons cfg diff ++ deletedReasons files ++
            (patternReason diff).toList ++ renamedReasons files))
      refine le_trans hsub.length_le ?_
      rw [List.filter_append, List.filter_append, List.filter_append,
          keywordReasons_filter_structural, deletedReasons_filter_structural,
          renamedReasons_filter_structural]
      simp only [List.nil_append, List.append_nil]
      refine le_trans (List.length_filter_le _ _) ?_
      cases patternReason diff <;> simp
  · intro cfg diff files s hen hs
    unfold detectBreakingChanges
    rw [if_neg (by simp [hen])]
    simp only [dedupFirst_mem, List.mem_append]
    refine Or.inl (Or.inr ?_)
    simp [hs]

/-- **C3 (amended) witness.** A concrete run in which the first matching
pattern's label does appear among the reasons. -/
theorem c3_structural_at_most_one_reason_witness :
    "Major version change detected" ∈
      (detectBreakingChanges DEFAULT_CONFIG "-\"version\": \"9\"" []).reasons :=
  c3_structural_at_most_one_reason.2 DEFAULT_CONFIG "-\"version\": \"9\"" []
    "Major version change detected" (by decide) (by decide)

/-- **C1.** End-to-end scenario: one staged file `Added src/api/users.ts`,
empty diff, scope mapping `src/api → api`: the first suggestion is labelled
`Recommended` with commit type `feat`, scope `api` and description
`add users.ts` (the ticket input is absent and the history profile is the
default one). -/
theorem c1_end_to_end_scenario :
    ((generateMultipleSuggestions
        { DEFAULT_CONFIG with scopes := some [⟨"src/api", "api"⟩] }
        [⟨"A", "src/api/users.ts"⟩] "" ⟨0, 0, 0⟩ none getDefaultAnalysis).head?.map
      (fun s => (s.label, s.message.type, s.message.scope, s.message.description))) =
      some ("Recommended", CommitType.feat, some "api", "add users.ts") := by
  decide

/-- **C2 counterexample.** With the default configuration (which configures
no custom template), a breaking message with a scope renders as
`feat(api)!: …` — the breaking indicator `!` comes after the parenthesised
scope, not between the type and the scope as the claim states. -/
theorem c2_counterexample :
    buildFullMessage DEFAULT_CONFIG .feat (some "api") "desc" none false none
        true ["r"] = "feat(api)!: desc\n\nBREAKING CHANGE: r" ∧
    "feat(api)!: desc\n\nBREAKING CHANGE: r" ≠
      "feat!(api): desc\n\nBREAKING CHANGE: r" :=
  ⟨by decide, by decide⟩

/-- **C2 (amended).** With no custom template configured, the rendered full
message is exactly the default layout with the breaking indicator `!`
placed after the parenthesised scope: emoji and space (if included), type,
`(scope)` (if present), `!` (if breaking), `": "` and the description,
followed by the body, the `BREAKING CHANGE:` block (first reason, further
reasons as `- ` bullet lines) when breaking and the footer option is
enabled, and the ticket footer. -/
theorem c2_default_layout (cfg : CommitGenieConfig) (type : CommitType)
    (scope : Option String) (description : String) (body : Option String)
    (includeEmoji : Bool) (ticketInfo : Option TicketInfo) (isBreaking : Bool)
    (breakingReasons : List String) (h : cfg.templates = none) :
    buildFullMessage cfg type scope description body includeEmoji ticketInfo
        isBreaking breakingReasons =
      renderDefaultLayout type scope description body includeEmoji ticketInfo
        isBreaking breakingReasons
        (!((cfg.breakingChangeDetection.bind (fun bc => bc.includeFooter)) ==
            some false)) := by
  unfold buildFullMessage renderDefaultLayout
  rw [h]
  dsimp only
  cases scope with
  | none =>
    cases body with
    | none => cases ticketInfo <;> simp [optTruthy, and_assoc, List.length_pos]
    | some b =>
      by_cases hb : b = "" <;> cases ticketInfo <;>
        simp [optTruthy, hb, and_assoc, List.length_pos]
  | some sc =>
    by_cases hsc : sc = "" <;> cases body with
    | none =>
      cases ticketInfo <;> simp [optTruthy, hsc, and_assoc, List.length_pos]
    | some b =>
      by_cases hb : b = "" <;> cases ticketInfo <;>
        simp [optTruthy, hsc, hb, and_assoc, List.length_pos]

/-- **C2 (amended) witness.** A concrete rendering through the theorem. -/
theorem c2_default_layout_witness :
    buildFullMessage DEFAULT_CONFIG .feat (some "api") "add x" (some "B") true
        (some ⟨"ABC-1", "branch", none⟩) true ["r1", "r2"] =
      renderDefaultLayout .feat (some "api") "add x" (some "B") true
        (some ⟨"ABC-1", "branch", none⟩) true ["r1", "r2"] true :=
  c2_default_layout DEFAULT_CONFIG .feat (some "api") "add x" (some "B") true
    (some ⟨"ABC-1", "branch", none⟩) true ["r1", "r2"] rfl

/-- **C4 counterexample.** For one added and one modified source file the
synthesized description is `add 1 file` — it contains no update part, so
the claimed presence of both an add part and an update part fails. -/
theorem c4_counterexample :
    (analyzeChanges DEFAULT_CONFIG [⟨"A", "a.ts"⟩, ⟨"M", "b.ts"⟩] ""
        ⟨0, 0, 0⟩).description = "add 1 file" ∧
    strIncludes "add 1 file" "update" = false :=
  ⟨by decide, by decide⟩

/-- **C4 (amended).** For every changeset with more than one file, at least
one of which classifies as source (so that no file-type group rule fires),
the description is composed from the status counts in the order add →
update → remove, the update part being emitted only when there are no
added files, with pluralisation and `" and "` joining, and the
`update N file(s)` fallback otherwise. -/
theorem c4_mixed_description (files : List FileChange) (diff : String)
    (h1 : 1 < files.length) (h2 : 0 < (countFileTypes files).source) :
    generateDescription (countFileTypes files)
      ⟨(groupFileChanges files).added.length,
       (groupFileChanges files).modified.length,
       (groupFileChanges files).deleted.length,
       (groupFileChanges files).renamed.length⟩ files diff =
    specMixedDescription (groupFileChanges files).added.length
      (groupFileChanges files).modified.length
      (groupFileChanges files).deleted.length files.length := by
  have hcount : (countFileTypes files).source ≠ 0 := Nat.pos_iff_ne_zero.mp h2
  unfold generateDescription specMixedDescription
  rw [if_neg (by omega)]
  rw [if_neg (fun hc => hcount hc.2), if_neg (fun hc => hcount hc.2),
      if_neg (fun hc => hcount hc.2)]
  dsimp only
  by_cases ha : (groupFileChanges files).added.length > 0 <;>
    by_cases hm : (groupFileChanges files).modified.length > 0 <;>
    by_cases hd : (groupFileChanges files).deleted.length > 0 <;>
    simp_all [strIntercalate, Nat.pos_iff_ne_zero]

/-- **C4 (amended) witness.** The theorem applied to one added and one
modified source file. -/
theorem c4_mixed_description_witness :
    generateDescription (countFileTypes [⟨"A", "a.ts"⟩, ⟨"M", "b.ts"⟩])
      ⟨(groupFileChanges [⟨"A", "a.ts"⟩, ⟨"M", "b.ts"⟩]).added.length,
       (groupFileChanges [⟨"A", "a.ts"⟩, ⟨"M", "b.ts"⟩]).modified.length,
       (groupFileChanges [⟨"A", "a.ts"⟩, ⟨"M", "b.ts"⟩]).deleted.length,
       (groupFileChanges [⟨"A", "a.ts"⟩, ⟨"M", "b.ts"⟩]).renamed.length⟩
      [⟨"A", "a.ts"⟩, ⟨"M", "b.ts"⟩] "" =
    specMixedDescription 1 1 0 2 :=
  c4_mixed_description [⟨"A", "a.ts"⟩, ⟨"M", "b.ts"⟩] "" (by decide) (by decide)

/-- **C6 counterexample.** For the single changed path `api` (no `/`
separator) the code resolves no scope, while the claimed precedence —
whose step (c) takes the first path segment whenever it is in the
allow-list — resolves `api`. -/
theorem c6_counterexample :
    determineScope DEFAULT_CONFIG [⟨"M", "api"⟩] = none ∧
    claimResolveScope DEFAULT_CONFIG ["api"] = some "api" :=
  ⟨by decide, by decide⟩

/-- **C6 (amended).** For every non-empty changeset the resolved scope
follows the precedence (a) all-match mapping, (b) majority mapping,
(c) first path segment in the allow-list provided the first path has more
than one segment, (d) none. -/
theorem c6_scope_precedence (cfg : CommitGenieConfig)
    (files : List FileChange) (h : files ≠ []) :
    determineScope cfg files =
      amendedResolveScope cfg (files.map (fun f => f.path)) := by
  unfold determineScope amendedResolveScope
  rw [if_neg (by simpa [List.length_eq_zero] using h)]
  cases hcs : cfg.scopes.getD [] with
  | nil => rfl
  | cons a as =>
    dsimp only
    rw [if_pos (show (a :: as).length > 0 by simp),
        if_pos (show (a :: as).length > 0 by simp)]

/-- **C6 (amended) witness.** The theorem applied to a concrete changeset. -/
theorem c6_scope_precedence_witness :
    determineScope DEFAULT_CONFIG [⟨"M", "ui/a.ts"⟩] =
      amendedResolveScope DEFAULT_CONFIG ["ui/a.ts"] :=
  c6_scope_precedence DEFAULT_CONFIG [⟨"M", "ui/a.ts"⟩] (by decide)

/-! ## Lemmas about the suggestion composition -/

theorem pushIf_ne_nil (b : Bool) (l : List MessageSuggestion) (lbl : String)
    (msg : CommitMessage) (h : l ≠ []) : pushIf b l lbl msg ≠ [] := by
  unfold pushIf
  split
  · simp
  · exact h

theorem pushIf_headq (b : Bool) (l : List MessageSuggestion) (lbl : String)
    (msg : CommitMessage) (h : l ≠ []) : (pushIf b l lbl msg).head? = l.head? := by
  unfold pushIf
  split
  · cases l with
    | nil => exact absurd rfl h
    | cons a as => rfl
  · rfl

theorem pushIf_length_le (b : Bool) (l : List MessageSuggestion) (lbl : String)
    (msg : CommitMessage) : (pushIf b l lbl msg).length ≤ l.length + 1 := by
  unfold pushIf
  split <;> simp

theorem pushIf_le_length (b : Bool) (l : List MessageSuggestion) (lbl : String)
    (msg : CommitMessage) : l.length ≤ (pushIf b l lbl msg).length := by
  unfold pushIf
  split <;> simp

theorem pushIf_ids (b : Bool) (l : List MessageSuggestion) (lbl : String)
    (msg : CommitMessage)
    (h : l.map (fun s => s.id) = List.range' 1 l.length) :
    (pushIf b l lbl msg).map (fun s => s.id) =
      List.range' 1 (pushIf b l lbl msg).length := by
  unfold pushIf
  split
  · have hlen :
        (l ++ [(⟨l.length + 1, msg, lbl⟩ : MessageSuggestion)]).length =
          l.length + 1 := by simp
    rw [List.map_append, h, hlen, List.range'_concat]
    simp [Nat.add_comm]
  · exact h

theorem suggFoldl_headq :
    ∀ (steps : List (Bool × String × CommitMessage))
      (l : List MessageSuggestion), l ≠ [] →
      (steps.foldl (fun l st => pushIf st.1 l st.2.1 st.2.2) l).head? = l.head?
  | [], _, _ => rfl
  | st :: steps, l, h => by
    rw [List.foldl_cons,
        suggFoldl_headq steps _ (pushIf_ne_nil st.1 l st.2.1 st.2.2 h),
        pushIf_headq st.1 l st.2.1 st.2.2 h]

theorem suggFoldl_length :
    ∀ (steps : List (Bool × String × CommitMessage))
      (l : List MessageSuggestion),
      l.length ≤ (steps.foldl (fun l st => pushIf st.1 l st.2.1 st.2.2) l).length ∧
      (steps.foldl (fun l st => pushIf st.1 l st.2.1 st.2.2) l).length ≤
        l.length + steps.length
  | [], l => ⟨le_refl _, by simp⟩
  | st :: steps, l => by
    rw [List.foldl_cons]
    obtain ⟨h1, h2⟩ := suggFoldl_length steps (pushIf st.1 l st.2.1 st.2.2)
    constructor
    · exact le_trans (pushIf_le_length st.1 l st.2.1 st.2.2) h1
    · refine le_trans h2 ?_
      have h3 := pushIf_length_le st.1 l st.2.1 st.2.2
      simp only [List.length_cons]
      omega

theorem suggFoldl_ids :
    ∀ (steps : List (Bool × String × CommitMessage))
      (l : List MessageSuggestion),
      l.map (fun s => s.id) = List.range' 1 l.length →
      (steps.foldl (fun l st => pushIf st.1 l st.2.1 st.2.2) l).map (fun s => s.id) =
        List.range' 1 (steps.foldl (fun l st => pushIf st.1 l st.2.1 st.2.2) l).length
  | [], _, h => h
  | st :: steps, l, h => by
    rw [List.foldl_cons]
    exact suggFoldl_ids steps _ (pushIf_ids st.1 l st.2.1 st.2.2 h)

theorem suggFoldl_mem :
    ∀ (steps : List (Bool × String × CommitMessage))
      (l : List MessageSuggestion) (x : MessageSuggestion),
      x ∈ steps.foldl (fun l st => pushIf st.1 l st.2.1 st.2.2) l →
      x ∈ l ∨ ∃ st ∈ steps, x.message = st.2.2
  | [], _, _, h => Or.inl h
  | st :: steps, l, x, h => by
    rw [List.foldl_cons] at h
    rcases suggFoldl_mem steps _ x h with h1 | ⟨st2, hst2, hmsg⟩
    · unfold pushIf at h1
      split at h1
      · rcases List.mem_append.mp h1 with h2 | h2
        · exact Or.inl h2
        · right
          refine ⟨st, List.mem_cons_self st steps, ?_⟩
          rw [List.mem_singleton] at h2
          rw [h2]
      · exact Or.inl h1
    · exact Or.inr ⟨st2, List.mem_cons_of_mem st hst2, hmsg⟩

theorem composeSuggestions_shape (first : MessageSuggestion)
    (steps : List (Bool × String × CommitMessage)) (hid : first.id = 1) :
    1 ≤ (composeSuggestions first steps).length ∧
    (composeSuggestions first steps).length ≤ 1 + steps.length ∧
    (composeSuggestions first steps).head? = some first ∧
    (composeSuggestions first steps).map (fun s => s.id) =
      List.range' 1 (composeSuggestions first steps).length := by
  unfold composeSuggestions
  refine ⟨?_, ?_, ?_, ?_⟩
  · simpa using (suggFoldl_length steps [first]).1
  · simpa using (suggFoldl_length steps [first]).2
  · rw [suggFoldl_headq steps [first] (by simp)]
    rfl
  · exact suggFoldl_ids steps [first] (by simp [hid, List.range'_one])

theorem getSuggestedScope_mem (hist : CommitHistoryAnalysis)
    (paths : List String) (s : String)
    (h : getSuggestedScope hist paths = some s) : s ∈ hist.commonScopes := by
  unfold getSuggestedScope at h
  split at h
  · cases h
  · obtain ⟨a, ha, hfa⟩ := List.exists_of_findSome?_eq_some h
    split at hfa
    · rw [Option.some_inj] at hfa
      subst hfa
      exact ha
    · cases hfa

/-- **C8.** A non-empty changeset whose files all classify as `test` gets
commit type `test`; all-`docs` gets `docs`; all-`config` gets `chore` —
regardless of the diff text. -/
theorem c8_homogeneous_changesets :
    (∀ (files : List FileChange) (diff : String), files ≠ [] →
      (∀ f ∈ files, detectFileType f.path = FileType.test) →
      determineCommitType (countFileTypes files) diff files = CommitType.test) ∧
    (∀ (files : List FileChange) (diff : String), files ≠ [] →
      (∀ f ∈ files, detectFileType f.path = FileType.docs) →
      determineCommitType (countFileTypes files) diff files = CommitType.docs) ∧
    (∀ (files : List FileChange) (diff : String), files ≠ [] →
      (∀ f ∈ files, detectFileType f.path = FileType.config) →
      determineCommitType (countFileTypes files) diff files = CommitType.chore) := by
  refine ⟨?_, ?_, ?_⟩ <;> intro files diff hne hall
  · have ht : (countFileTypes files).test = files.length :=
      List.countP_eq_length.mpr (fun f hf => by simp [hall f hf])
    have hs : (countFileTypes files).source = 0 :=
      List.countP_eq_zero.mpr (fun f hf => by simp [hall f hf])
    have hd : (countFileTypes files).docs = 0 :=
      List.countP_eq_zero.mpr (fun f hf => by simp [hall f hf])
    unfold determineCommitType
    dsimp only
    rw [if_pos ⟨by rw [ht]; exact List.length_pos.mpr hne, hs, hd⟩]
  · have ht : (countFileTypes files).test = 0 :=
      List.countP_eq_zero.mpr (fun f hf => by simp [hall f hf])
    have hs : (countFileTypes files).source = 0 :=
      List.countP_eq_zero.mpr (fun f hf => by simp [hall f hf])
    have hd : (countFileTypes files).docs = files.length :=
      List.countP_eq_length.mpr (fun f hf => by simp [hall f hf])
    unfold determineCommitType
    dsimp only
    rw [if_neg (fun hc => by rw [ht] at hc; exact absurd hc.1 (lt_irrefl 0)),
        if_pos ⟨by rw [hd]; exact List.length_pos.mpr hne, hs, ht⟩]
  · have ht : (countFileTypes files).test = 0 :=
      List.countP_eq_zero.mpr (fun f hf => by simp [hall f hf])
    have hs : (countFileTypes files).source = 0 :=
      List.countP_eq_zero.mpr (fun f hf => by simp [hall f hf])
    have hd : (countFileTypes files).docs = 0 :=
      List.countP_eq_zero.mpr (fun f hf => by simp [hall f hf])
    have hc : (countFileTypes files).config = files.length :=
      List.countP_eq_length.mpr (fun f hf => by simp [hall f hf])
    unfold determineCommitType
    dsimp only
    rw [if_neg (fun hg => by rw [ht] at hg; exact absurd hg.1 (lt_irrefl 0)),
        if_neg (fun hg => by rw [hd] at hg; exact absurd hg.1 (lt_irrefl 0)),
        if_pos ⟨by rw [hc]; exact List.length_pos.mpr hne, hs, ht, hd⟩]

/-- **C8 witness.** The theorem applied to a test-only, a docs-only and a
config-only changeset. -/
theorem c8_homogeneous_changesets_witness :
    determineCommitType (countFileTypes [⟨"M", "a.test.ts"⟩]) ""
        [⟨"M", "a.test.ts"⟩] = CommitType.test ∧
    determineCommitType (countFileTypes [⟨"M", "README.md"⟩]) ""
        [⟨"M", "README.md"⟩] = CommitType.docs ∧
    determineCommitType (countFileTypes [⟨"M", "package.json"⟩]) ""
        [⟨"M", "package.json"⟩] = CommitType.chore :=
  ⟨c8_homogeneous_changesets.1 [⟨"M", "a.test.ts"⟩] "" (by decide) (by decide),
   c8_homogeneous_changesets.2.1 [⟨"M", "README.md"⟩] "" (by decide) (by decide),
   c8_homogeneous_changesets.2.2 [⟨"M", "package.json"⟩] "" (by decide) (by decide)⟩

/-- **C9.** For every analysis input the suggestion list has between 1 and
6 entries, its first variant is present with id 1 and label `Recommended`
(or `Breaking Change` when a breaking change was detected), and the ids are
sequential starting at 1 in emission order. -/
theorem c9_suggestion_list_shape (cfg : CommitGenieConfig)
    (files : List FileChange) (diff : String) (stats : DiffStats)
    (ticketInfo : Option TicketInfo) (history : CommitHistoryAnalysis) :
    1 ≤ (generateMultipleSuggestions cfg files diff stats ticketInfo history).length ∧
    (generateMultipleSuggestions cfg files diff stats ticketInfo history).length ≤ 6 ∧
    (∃ s, (generateMultipleSuggestions cfg files diff stats ticketInfo
        history).head? = some s ∧ s.id = 1 ∧
      s.label = (if (analyzeChanges cfg files diff stats).isBreakingChange then
        "Breaking Change" else "Recommended")) ∧
    (generateMultipleSuggestions cfg files diff stats ticketInfo history).map
        (fun s => s.id) =
      List.range' 1
        (generateMultipleSuggestions cfg files diff stats ticketInfo
          history).length := by
  refine ⟨?_, ?_, ?_, ?_⟩
  · exact (composeSuggestions_shape _ _ rfl).1
  · refine le_trans (composeSuggestions_shape _ _ rfl).2.1 ?_
    simp
  · exact ⟨_, (composeSuggestions_shape _ _ rfl).2.2.1, rfl, rfl⟩
  · exact (composeSuggestions_shape _ _ rfl).2.2.2

/-- **C10 counterexample.** A reachable history (one commit whose subject
is `feat(()): d`, whose conventional scope token collapses to the empty
string) makes the history-suggested scope the empty string, and the first
emitted variant's scope field is `some ""` — not `undefined`, not a
non-empty string. -/
theorem c10_counterexample :
    ((generateMultipleSuggestions DEFAULT_CONFIG [⟨"A", "x.ts"⟩] "" ⟨0, 0, 0⟩
        none (performAnalysis [⟨"feat(()): d"⟩])).head?.map
      (fun s => s.message.scope)) = some (some "") := by
  decide

/-- **C10 (amended).** Whenever every scope name in the history profile's
common-scope list is non-empty (in particular whenever history learning is
disabled or yields no scopes), the scope of every emitted variant is either
`none` or a non-empty string. -/
theorem c10_scope_nonempty (cfg : CommitGenieConfig)
    (files : List FileChange) (diff : String) (stats : DiffStats)
    (ticketInfo : Option TicketInfo) (history : CommitHistoryAnalysis)
    (hh : ∀ s ∈ history.commonScopes, s ≠ "") :
    ∀ sug ∈ generateMultipleSuggestions cfg files diff stats ticketInfo
        history, sug.message.scope ≠ some "" := by
  intro sug hmem
  have hscope : (if optTruthy (analyzeChanges cfg files diff stats).scope then
      (analyzeChanges cfg files diff stats).scope
    else getSuggestedScope history (files.map (fun f => f.path))) ≠ some "" := by
    split
    · rename_i htr
      intro hc
      rw [hc] at htr
      simp [optTruthy] at htr
    · intro hc
      exact hh "" (getSuggestedScope_mem history _ "" hc) rfl
  unfold generateMultipleSuggestions composeSuggestions at hmem
  rcases suggFoldl_mem _ _ _ hmem with h1 | ⟨st, hst, hmsg⟩
  · rw [List.mem_singleton] at h1
    rw [h1]
    exact hscope
  · simp only [List.mem_cons, List.not_mem_nil, or_false] at hst
    rcases hst with rfl | rfl | rfl | rfl | rfl <;> rw [hmsg] <;>
      first
        | exact hscope
        | simp

/-- **C10 (amended) witness.** The theorem applied to a run with the
default (empty-scope-free) history profile. -/
theorem c10_scope_nonempty_witness :
    ((generateMultipleSuggestions DEFAULT_CONFIG [⟨"A", "x.ts"⟩] "" ⟨0, 0, 0⟩
        none getDefaultAnalysis).headD
      ⟨0, ⟨CommitType.feat, none, "", none, "", false⟩, ""⟩).message.scope ≠
      some "" :=
  c10_scope_nonempty DEFAULT_CONFIG [⟨"A", "x.ts"⟩] "" ⟨0, 0, 0⟩ none
    getDefaultAnalysis (by decide) _ (by decide)

/-- **C7.** The history profile's `usesEmojis` flag is true exactly when
the emoji-prefixed subjects strictly exceed 30% of the sampled commits, and
`usesConventionalCommits` exactly when the conventional-commit-prefixed
subjects strictly exceed 50% (both in exact rational form and in the
equivalent integer form). -/
theorem c7_history_thresholds (commits : List HistoricalCommit) :
    ((performAnalysis commits).usesEmojis = true ↔
      (commits.countP (fun c => (emojiMatch c.subject).isSome) : ℚ) >
        3 / 10 * commits.length) ∧
    ((performAnalysis commits).usesConventionalCommits = true ↔
      (commits.countP (fun c => (matchConventional c.subject).isSome) : ℚ) >
        1 / 2 * commits.length) ∧
    ((performAnalysis commits).usesEmojis = true ↔
      10 * commits.countP (fun c => (emojiMatch c.subject).isSome) >
        3 * commits.length) ∧
    ((performAnalysis commits).usesConventionalCommits = true ↔
      2 * commits.countP (fun c => (matchConventional c.subject).isSome) >
        commits.length) := by
  unfold performAnalysis
  simp only [decide_eq_true_eq]
  refine ⟨by rw [mul_comm], by rw [mul_comm], ?_, ?_⟩
  · rw [gt_iff_lt, gt_iff_lt,
        ← mul_lt_mul_right (show (0 : ℚ) < 10 by norm_num)]
    constructor
    · intro hq
      have : ((3 * commits.length : ℕ) : ℚ) <
          ((10 * commits.countP (fun c => (emojiMatch c.subject).isSome) : ℕ) : ℚ) := by
        push_cast
        push_cast at hq
        linarith
      exact_mod_cast this
    · intro hn
      have : ((3 * commits.length : ℕ) : ℚ) <
          ((10 * commits.countP (fun c => (emojiMatch c.subject).isSome) : ℕ) : ℚ) := by
        exact_mod_cast hn
      push_cast at this
      linarith
  · rw [gt_iff_lt, gt_iff_lt,
        ← mul_lt_mul_right (show (0 : ℚ) < 2 by norm_num)]
    constructor
    · intro hq
      have : ((commits.length : ℕ) : ℚ) <
          ((2 * commits.countP (fun c => (matchConventional c.subject).isSome) : ℕ) : ℚ) := by
        push_cast
        push_cast at hq
        linarith
      exact_mod_cast this
    · intro hn
      have : ((commits.length : ℕ) : ℚ) <
          ((2 * commits.countP (fun c => (matchConventional c.subject).isSome) : ℕ) : ℚ) := by
        exact_mod_cast hn
      push_cast at this
      linarith

end CommitGenie
